import Mathlib

/-!
Verification of the airtable-base-replicator repository.

The development shallowly embeds the two source modules the claims are about:

* `cli/export-schema.js` (in `src/unnamed/part_000`, lines 290-622): the schema
  export pipeline — `classifyField`, `buildManualInstructions`, `processSchema`.
* `worker/index.js`: the Cloudflare-Worker CORS relay (`fetch`, `handlePreflight`,
  `isOriginAllowed`, `jsonResponse`).

JavaScript values that may be `undefined`/`null` are modelled with `Option`;
JS truthiness on strings (`""` is falsy), booleans and optional values is made
explicit through the `jsTruthy*` helpers.  String primitives used by the code
(`String.prototype.replace` with a string pattern = first occurrence,
`split("\n")[0]`, `startsWith`, `toUpperCase`, template literals) are embedded
as structurally recursive functions over `List Char` so that every concrete
evaluation reduces in the kernel.
-/

/-- JS truthiness of an optional string: `undefined`/`null` and `""` are falsy. -/
def jsTruthyOS : Option String → Bool
  | some s => !(s == "")
  | none => false

/-- JS truthiness of an optional boolean (`undefined` is falsy). -/
def jsTruthyOB : Option Bool → Bool
  | some b => b
  | none => false

/-- JS `x || ""` on an optional string. -/
def jsOrEmpty : Option String → String
  | some s => s
  | none => ""

/-- Whether `pat` is an initial segment of `s` (JS `startsWith`, on char lists). -/
def leadsWith : List Char → List Char → Bool
  | [], _ => true
  | _ :: _, [] => false
  | p :: ps, c :: cs => p == c && leadsWith ps cs

/-- JS `String.prototype.startsWith`. -/
def jsStartsWith (s pat : String) : Bool :=
  leadsWith pat.data s.data

/-- Locate the first occurrence of `pat` in a char list, returning the part
before the match and the part after it. -/
def findSub (pat : List Char) : List Char → Option (List Char × List Char)
  | [] => if leadsWith pat [] then some ([], []) else none
  | c :: cs =>
    if leadsWith pat (c :: cs) then some ([], (c :: cs).drop pat.length)
    else (findSub pat cs).map (fun q => (c :: q.1, q.2))

/-- JS `String.prototype.replace` with a string pattern: replaces only the first
occurrence; with an empty pattern JS prepends the replacement. -/
def replaceFirst (s pat rep : String) : String :=
  if pat == "" then rep ++ s
  else
    match findSub pat.data s.data with
    | some q => String.mk (q.1 ++ rep.data ++ q.2)
    | none => s

/-- JS `String.prototype.includes`. -/
def strContains (s pat : String) : Bool :=
  if pat == "" then true else (findSub pat.data s.data).isSome

/-- JS `str.split("\n")[0]`: everything before the first newline. -/
def firstLine (s : String) : String :=
  String.mk (s.data.takeWhile (fun c => !(c == '\n')))

/-- JS `[..].join("\n")`. -/
def joinNL : List String → String
  | [] => ""
  | [s] => s
  | s :: rest => s ++ "\n" ++ joinNL rest

/-- `capitalize` from export-schema.js:
`str.charAt(0).toUpperCase() + str.slice(1)`. -/
def capitalize (s : String) : String :=
  match s.data with
  | [] => ""
  | c :: cs => String.mk (c.toUpper :: cs)

/-- JS `String.prototype.toUpperCase` (ASCII, as used on HTTP method names). -/
def upperStr (s : String) : String :=
  String.mk (s.data.map Char.toUpper)

/-! ## Raw schema data model (the metadata-endpoint JSON, §3 of the spec) -/

/-- One entry of a select field's `choices` array as reported by the source
base; the auto-generated `id` and the `color` may be absent. -/
structure RawChoice where
  id : Option String
  name : String
  color : Option String
deriving DecidableEq, Repr

/-- The `options` object of a raw field.  Only the keys the program reads are
modelled; `resultFormula` stands for `options.result?.formula`. -/
structure RawOptions where
  isReversed : Option Bool
  linkedTableId : Option String
  prefersSingleRecordLink : Option Bool
  formula : Option String
  fieldIdInLinkedTable : Option String
  recordLinkFieldId : Option String
  resultFormula : Option String
  choices : Option (List RawChoice)
deriving DecidableEq, Repr

/-- The empty options object `{}` (used for `field.options || {}`). -/
def emptyRawOptions : RawOptions :=
  { isReversed := none, linkedTableId := none, prefersSingleRecordLink := none,
    formula := none, fieldIdInLinkedTable := none, recordLinkFieldId := none,
    resultFormula := none, choices := none }

/-- A raw field `{id, name, type, description, options}`. -/
structure RawField where
  id : String
  name : String
  type : String
  description : Option String
  options : Option RawOptions
deriving DecidableEq, Repr

/-- A raw table `{id, name, description, primaryFieldId, fields}`. -/
structure RawTable where
  id : String
  name : String
  description : Option String
  primaryFieldId : String
  fields : List RawField
deriving DecidableEq, Repr

/-- The raw schema `{tables: [...]}` returned by the metadata endpoint. -/
structure RawSchema where
  tables : List RawTable
deriving DecidableEq, Repr

/-! ## Field classifier (export-schema.js lines 311-372) -/

/-- The five handling categories. -/
inductive Category where
  | creatable
  | link
  | manual
  | autoSystem
  | inverseLink
deriving DecidableEq, Repr

/-- `NON_CREATABLE_TYPES.has(ty)`: the four manual types. -/
def NON_CREATABLE_TYPES (ty : String) : Bool :=
  ty == "formula" || ty == "rollup" || ty == "multipleLookupValues" || ty == "count"

/-- `AUTO_SYSTEM_TYPES.has(ty)`: the five auto-populated system types. -/
def AUTO_SYSTEM_TYPES (ty : String) : Bool :=
  ty == "autoNumber" || ty == "createdTime" || ty == "lastModifiedTime" ||
    ty == "createdBy" || ty == "lastModifiedBy"

/-- `LINK_TYPE` from export-schema.js. -/
def LINK_TYPE : String := "multipleRecordLinks"

/-- `classifyField(field)` from export-schema.js lines 357-372.
`field.options?.isReversed` is a JS truthiness test. -/
def classifyField (f : RawField) : Category :=
  if NON_CREATABLE_TYPES f.type then Category.manual
  else if AUTO_SYSTEM_TYPES f.type then Category.autoSystem
  else if f.type == LINK_TYPE then
    if jsTruthyOB (f.options.bind RawOptions.isReversed) then Category.inverseLink
    else Category.link
  else Category.creatable

/-! ## Placeholder instruction builder (export-schema.js lines 374-443) -/

/-- The `{description, cellInstructions}` record `buildManualInstructions`
returns. -/
structure Instructions where
  description : String
  cellInstructions : String
deriving DecidableEq, Repr

/-- The type label: `field.type === "multipleLookupValues" ? "Lookup" :
capitalize(field.type)`. -/
def typeLabelOf (ty : String) : String :=
  if ty == "multipleLookupValues" then "Lookup" else capitalize ty

/-- One candidate line of a rollup/lookup config summary:
`cond ? \x60prefix value\x60 : null` where `cond` is JS truthiness of the value. -/
def optLineOf (v : Option String) (pfx : String) : Option String :=
  if jsTruthyOS v then some (pfx ++ jsOrEmpty v) else none

/-- The `configSummary` computed by the `switch` in `buildManualInstructions`
(lines 378-420), including every truthiness default. -/
def configSummaryOf (f : RawField) : String :=
  if f.type == "formula" then
    let fo := f.options.bind RawOptions.formula
    if jsTruthyOS fo then "Formula: " ++ jsOrEmpty fo
    else "Formula: (not available — check the original base)"
  else if f.type == "rollup" then
    let cs := joinNL (List.filterMap id
      [optLineOf (f.options.bind RawOptions.fieldIdInLinkedTable) "Summarize field: ",
       optLineOf (f.options.bind RawOptions.recordLinkFieldId) "From linked record field: ",
       optLineOf (f.options.bind RawOptions.resultFormula) "Aggregation: "])
    if cs == "" then "(check the original base for rollup configuration)" else cs
  else if f.type == "multipleLookupValues" then
    let cs := joinNL (List.filterMap id
      [optLineOf (f.options.bind RawOptions.fieldIdInLinkedTable) "Lookup field: ",
       optLineOf (f.options.bind RawOptions.recordLinkFieldId) "From linked record field: "])
    if cs == "" then "(check the original base for lookup configuration)" else cs
  else if f.type == "count" then
    let v := f.options.bind RawOptions.recordLinkFieldId
    if jsTruthyOS v then "Count records from linked field: " ++ jsOrEmpty v
    else "(check the original base for count configuration)"
  else "(check the original base for configuration)"

/-- `buildManualInstructions(field)` from export-schema.js lines 374-443. -/
def buildManualInstructions (f : RawField) : Instructions :=
  let typeLabel := typeLabelOf f.type
  let configSummary := configSummaryOf f
  { description :=
      "⚠️ MANUAL SETUP REQUIRED — " ++ typeLabel ++ ": " ++ firstLine configSummary,
    cellInstructions := joinNL
      ["⚠️ MANUAL SETUP REQUIRED",
       "",
       "Field type: " ++ typeLabel ++ " (currently Long Text — you must change it)",
       "",
       configSummary,
       "",
       "Steps:",
       "1. Click this field\x27s column header",
       "2. Select \"Customize field type\"",
       "3. Change the type from \"Long text\" to \"" ++ typeLabel ++ "\"",
       "4. Configure using the information above",
       "5. Click \"Save\"",
       "6. Delete this instruction row when you\x27re done with ALL fields in this table"] }

/-! ## Normalized schema model and `processSchema` (export-schema.js lines 445-586) -/

/-- A sanitized select choice: only `name`, plus `color` when the raw color is
truthy (`if (color) c.color = color`).  No `id` key exists in this record. -/
structure CleanChoice where
  name : String
  color : Option String
deriving DecidableEq, Repr

/-- `({ name, color }) => { const c = { name }; if (color) c.color = color; return c; }` -/
def stripChoice (c : RawChoice) : CleanChoice :=
  { name := c.name,
    color := if jsTruthyOS c.color then c.color else none }

/-- The deep copy `JSON.parse(JSON.stringify(field.options))` with the
choice-id strip applied (`if (cleanField.options.choices)` is truthy for any
present array, `[]` included). -/
structure CleanOptions where
  isReversed : Option Bool
  linkedTableId : Option String
  prefersSingleRecordLink : Option Bool
  formula : Option String
  fieldIdInLinkedTable : Option String
  recordLinkFieldId : Option String
  resultFormula : Option String
  choices : Option (List CleanChoice)
deriving DecidableEq, Repr

/-- Copy all option keys, mapping `choices` through `stripChoice`. -/
def cleanOptionsOf (o : RawOptions) : CleanOptions :=
  { isReversed := o.isReversed, linkedTableId := o.linkedTableId,
    prefersSingleRecordLink := o.prefersSingleRecordLink, formula := o.formula,
    fieldIdInLinkedTable := o.fieldIdInLinkedTable,
    recordLinkFieldId := o.recordLinkFieldId, resultFormula := o.resultFormula,
    choices := o.choices.map (List.map stripChoice) }

/-- A normalized field record.  JS adds the category-specific properties to the
clean record; properties a category does not add are `none`. -/
structure NormField where
  originalId : String
  name : String
  type : String
  description : String
  options : Option CleanOptions
  linkedTableId : Option String
  prefersSingleRecordLink : Option Bool
  linkedTableName : Option String
  manualType : Option String
  manualDescription : Option String
  manualCellInstructions : Option String
  originalOptions : Option RawOptions
deriving DecidableEq, Repr

/-- Lines 456-502: the clean field record plus the per-category extras
(`linkedTableId`/`prefersSingleRecordLink` for `link`; the manual strings and
`originalOptions = field.options || {}` for `manual`). -/
def normalizeField (f : RawField) : NormField :=
  let base : NormField :=
    { originalId := f.id, name := f.name, type := f.type,
      description := jsOrEmpty f.description,
      options := f.options.map cleanOptionsOf,
      linkedTableId := none, prefersSingleRecordLink := none,
      linkedTableName := none, manualType := none, manualDescription := none,
      manualCellInstructions := none, originalOptions := none }
  match classifyField f with
  | Category.creatable => base
  | Category.link =>
    { base with
      linkedTableId := f.options.bind RawOptions.linkedTableId,
      prefersSingleRecordLink :=
        some (jsTruthyOB (f.options.bind RawOptions.prefersSingleRecordLink)) }
  | Category.manual =>
    let ins := buildManualInstructions f
    { base with
      manualType := some (typeLabelOf f.type),
      manualDescription := some ins.description,
      manualCellInstructions := some ins.cellInstructions,
      originalOptions := some (f.options.getD emptyRawOptions) }
  | Category.autoSystem => base
  | Category.inverseLink => base

/-- The five per-table accumulator arrays of the field loop. -/
structure Parts where
  creatable : List NormField
  link : List NormField
  manual : List NormField
  autoSystem : List NormField
  inverseLink : List NormField
deriving DecidableEq, Repr

/-- One iteration of `for (const field of table.fields)`: classify and push the
normalized record onto the matching array. -/
def pushField (acc : Parts) (f : RawField) : Parts :=
  match classifyField f with
  | Category.creatable => { acc with creatable := acc.creatable ++ [normalizeField f] }
  | Category.link => { acc with link := acc.link ++ [normalizeField f] }
  | Category.manual => { acc with manual := acc.manual ++ [normalizeField f] }
  | Category.autoSystem => { acc with autoSystem := acc.autoSystem ++ [normalizeField f] }
  | Category.inverseLink => { acc with inverseLink := acc.inverseLink ++ [normalizeField f] }

/-- The whole field loop of one table. -/
def processFields (fields : List RawField) : Parts :=
  fields.foldl pushField ⟨[], [], [], [], []⟩

/-- A normalized table (lines 505-515). -/
structure NormTable where
  originalId : String
  name : String
  description : String
  primaryFieldId : String
  creatableFields : List NormField
  linkFields : List NormField
  manualFields : List NormField
  autoSystemFields : List NormField
  inverseLinkFields : List NormField
deriving DecidableEq, Repr

/-- `rawSchema.tables.map((table) => ...)` body. -/
def processTable (t : RawTable) : NormTable :=
  let p := processFields t.fields
  { originalId := t.id, name := t.name, description := jsOrEmpty t.description,
    primaryFieldId := t.primaryFieldId,
    creatableFields := p.creatable, linkFields := p.link, manualFields := p.manual,
    autoSystemFields := p.autoSystem, inverseLinkFields := p.inverseLink }

/-- The `tableIdToName` object is a string-keyed map built by insertion in table
order; it is modelled by the insertion list, looked up with last-entry-wins. -/
def tableIdToName (tables : List NormTable) : List (String × String) :=
  tables.map (fun t => (t.originalId, t.name))

/-- Lookup in a JS object modelled as an insertion list: the latest assignment
to a key wins. -/
def jsLookup (m : List (String × String)) (k : String) : Option String :=
  match m with
  | [] => none
  | p :: rest =>
    match jsLookup rest k with
    | some v => some v
    | none => if p.1 == k then some p.2 else none

/-- Line 527: `linkField.linkedTableName =
tableIdToName[linkField.linkedTableId] || linkField.linkedTableId`. -/
def resolveLinkName (m : List (String × String)) (lf : NormField) : NormField :=
  let looked : Option String :=
    match lf.linkedTableId with
    | some tid => jsLookup m tid
    | none => none
  { lf with linkedTableName := if jsTruthyOS looked then looked else lf.linkedTableId }

/-- The double replacement the `recordLinkFieldId` loop applies for one
matching field `f` (lines 536-543): replace the first occurrence of the raw id
in both instruction strings by `"<name>" field`.  The pair is
`(manualCellInstructions, manualDescription)`. -/
def repCL (rid : String) (q : String × String) (f : NormField) : String × String :=
  (replaceFirst q.1 rid ("\"" ++ f.name ++ "\" field"),
   replaceFirst q.2 rid ("\"" ++ f.name ++ "\" field"))

/-- Lines 531-547: for every field of every table's `creatableFields` and
`linkFields` whose `originalId` equals `recordLinkFieldId`, apply `repCL`. -/
def step1 (tables : List NormTable) (rid : String) (p : String × String) :
    String × String :=
  tables.foldl
    (fun acc t =>
      (t.creatableFields ++ t.linkFields).foldl
        (fun acc2 f => if f.originalId == rid then repCL rid acc2 f else acc2)
        acc)
    p

/-- The replacement step2 performs for one matching link/inverse-link field `f`:
follow `f.linkedTableId` (JS-truthy) to the first table with that `originalId`,
find the first of its creatable/link/manual fields whose `originalId` is `fid`,
and replace the first occurrence of `fid` in both strings. -/
def step2One (tables : List NormTable) (fid : String) (f : NormField)
    (p : String × String) : String × String :=
  match f.linkedTableId with
  | none => p
  | some ltid =>
    if ltid == "" then p
    else
      match tables.find? (fun tt => tt.originalId == ltid) with
      | none => p
      | some lt =>
        match (lt.creatableFields ++ lt.linkFields ++ lt.manualFields).find?
            (fun ff => ff.originalId == fid) with
        | none => p
        | some lf =>
          (replaceFirst p.1 fid ("\"" ++ lf.name ++ "\" in \"" ++ lt.name ++ "\""),
           replaceFirst p.2 fid ("\"" ++ lf.name ++ "\" in \"" ++ lt.name ++ "\""))

/-- JS `===` between a string and a possibly-undefined string: an absent
right-hand side matches nothing. -/
def jsStrictEqOS (a : String) (b : Option String) : Bool :=
  match b with
  | some s => a == s
  | none => false

/-- The scan of the `fieldIdInLinkedTable` loop over a table list `scan`; the
chain lookups of `step2One` run against the full table list `tables` (in the
source both are the same `tables` array — see `step2`). -/
def step2Scan (tables : List NormTable) (rid : Option String) (fid : String)
    (scan : List NormTable) (p : String × String) : String × String :=
  scan.foldl
    (fun acc t =>
      (t.linkFields ++ t.inverseLinkFields).foldl
        (fun acc2 f =>
          if jsStrictEqOS f.originalId rid then step2One tables fid f acc2
          else acc2)
        acc)
    p

/-- Lines 548-576: scan every table's `linkFields` and `inverseLinkFields` for a
field whose `originalId` equals `recordLinkFieldId` (compared with JS `===`, so
an absent `recordLinkFieldId` matches nothing) and apply `step2One` to it. -/
def step2 (tables : List NormTable) (rid : Option String) (fid : String)
    (p : String × String) : String × String :=
  step2Scan tables rid fid tables p

/-- The whole manual-resolution body (lines 530-577) on the instruction-string
pair of one manual field: the `recordLinkFieldId` pass guarded by truthiness,
then the `fieldIdInLinkedTable` pass guarded by truthiness. -/
def resolveManualStrings (tables : List NormTable) (oo : RawOptions)
    (p : String × String) : String × String :=
  let p1 :=
    match oo.recordLinkFieldId with
    | some r => if r == "" then p else step1 tables r p
    | none => p
  match oo.fieldIdInLinkedTable with
  | some fi => if fi == "" then p1 else step2 tables oo.recordLinkFieldId fi p1
  | none => p1

/-- Apply `resolveManualStrings` to one manual field's stored strings.  Every
field in `manualFields` carries `some` for all three components. -/
def resolveManualField (tables : List NormTable) (mf : NormField) : NormField :=
  match mf.originalOptions, mf.manualCellInstructions, mf.manualDescription with
  | some oo, some c, some d =>
    let q := resolveManualStrings tables oo (c, d)
    { mf with manualCellInstructions := some q.1, manualDescription := some q.2 }
  | _, _, _ => mf

/-- The normalized schema (lines 580-585).  `exportedAt` is the wall-clock
timestamp `new Date().toISOString()` and is not modelled. -/
structure NormSchema where
  name : String
  tableCount : Nat
  tables : List NormTable
deriving DecidableEq, Repr

/-- `processSchema(rawSchema, baseName)` from export-schema.js lines 445-586.
The JS resolution pass mutates `tables` in place while iterating, but the
manual-field search only reads `originalId`, `name` and `linkedTableId` —
none of which the pass rewrites (it only adds `linkedTableName` and rewrites
instruction strings) — so resolving every table against the pre-pass list is
equivalent to the in-place mutation. -/
def processSchema (raw : RawSchema) (baseName : Option String) : NormSchema :=
  let tables := raw.tables.map processTable
  let m := tableIdToName tables
  let tables2 := tables.map (fun t =>
    { t with
      linkFields := t.linkFields.map (resolveLinkName m),
      manualFields := t.manualFields.map (resolveManualField tables) })
  { name := if jsTruthyOS baseName then jsOrEmpty baseName else "Airtable Base",
    tableCount := tables2.length,
    tables := tables2 }

/-! ## The CORS relay (worker/index.js) -/

/-- An incoming relay request: the method, the four headers the worker reads
(`null` when absent), and the body text. -/
structure Request where
  method : String
  origin : Option String
  targetUrl : Option String
  airtableMethod : Option String
  authorization : Option String
  body : String
deriving DecidableEq, Repr

/-- A relay response: status, body (the JSON error text is abstracted to its
message; a `null` body is `""`), and the response headers as name-value pairs. -/
structure Response where
  status : Nat
  body : String
  headers : List (String × String)
deriving DecidableEq, Repr

/-- The single upstream `fetch(targetUrl, fetchOpts)` the worker may issue. -/
structure UpstreamReq where
  url : String
  method : String
  authorization : Option String
  body : Option String
deriving DecidableEq, Repr

/-- The environment's answer to the upstream fetch: a status/body, or a thrown
network error. -/
inductive Upstream where
  | ok (status : Nat) (body : String)
  | err (msg : String)
deriving DecidableEq, Repr

/-- The deployed `ALLOWED_ORIGINS` constant (`["*"]`, configurable). -/
def ALLOWED_ORIGINS : List String := ["*"]

/-- `isOriginAllowed(origin)` from worker/index.js lines 104-107, with the
configurable constant passed explicitly. -/
def isOriginAllowed (allowed : List String) (origin : String) : Bool :=
  if allowed.contains "*" then true else allowed.contains origin

/-- `jsonResponse(body, status, origin)` from lines 109-117. -/
def jsonResponse (body : String) (status : Nat) (origin : String) : Response :=
  { status := status, body := body,
    headers := [("Content-Type", "application/json"),
                ("Access-Control-Allow-Origin", origin)] }

/-- `handlePreflight(request)` from lines 87-102 (the `Access-Control-*`
method/header/max-age values are carried verbatim). -/
def handlePreflight (allowed : List String) (req : Request) : Response :=
  let origin := jsOrEmpty req.origin
  if !isOriginAllowed allowed origin then
    { status := 403, body := "", headers := [] }
  else
    { status := 204, body := "",
      headers := [("Access-Control-Allow-Origin", if origin == "" then "*" else origin),
                  ("Access-Control-Allow-Methods", "POST, OPTIONS"),
                  ("Access-Control-Allow-Headers",
                   "Content-Type, Authorization, X-Airtable-Target-Url, X-Airtable-Method"),
                  ("Access-Control-Max-Age", "86400")] }

/-- The worker's `fetch(request)` handler (lines 20-85).  The first component
records the upstream fetch issued, if any (`none` = never forwarded); the
upstream outcome `up` is only consulted when a fetch is issued. -/
def workerFetch (allowed : List String) (req : Request) (up : Upstream) :
    Option UpstreamReq × Response :=
  if req.method == "OPTIONS" then
    (none, handlePreflight allowed req)
  else if !(req.method == "POST") then
    (none, jsonResponse "Method not allowed. Use POST." 405 "*")
  else
    let origin := jsOrEmpty req.origin
    if !isOriginAllowed allowed origin then
      (none, jsonResponse "Origin not allowed" 403 "*")
    else
      let airtableMethod :=
        if jsTruthyOS req.airtableMethod then jsOrEmpty req.airtableMethod else "POST"
      if !(jsTruthyOS req.targetUrl &&
            jsStartsWith (jsOrEmpty req.targetUrl) "https://api.airtable.com/") then
        (none, jsonResponse
          "Invalid or missing X-Airtable-Target-Url. Must start with https://api.airtable.com/"
          400 "*")
      else
        let ureq : UpstreamReq :=
          { url := jsOrEmpty req.targetUrl,
            method := airtableMethod,
            authorization :=
              if jsTruthyOS req.authorization then req.authorization else none,
            body :=
              if ["POST", "PATCH", "PUT"].contains (upperStr airtableMethod) then
                some req.body
              else none }
        match up with
        | Upstream.ok st b =>
          (some ureq,
           { status := st, body := b,
             headers := [("Content-Type", "application/json"),
                         ("Access-Control-Allow-Origin", if origin == "" then "*" else origin),
                         ("Access-Control-Allow-Methods", "POST, OPTIONS"),
                         ("Access-Control-Allow-Headers",
                          "Content-Type, Authorization, X-Airtable-Target-Url, X-Airtable-Method")] })
        | Upstream.err m =>
          (some ureq, jsonResponse ("Proxy fetch failed: " ++ m) 502 origin)

/-! ## Concrete inputs used by witnesses and counterexamples -/

/-- A formula field with no options. -/
def exFormulaField : RawField :=
  { id := "fldF", name := "Total", type := "formula", description := none,
    options := none }

/-- A rollup field whose `recordLinkFieldId` names `fldM`. -/
def exRollupField : RawField :=
  { id := "fldR", name := "Roll", type := "rollup", description := none,
    options := some { emptyRawOptions with recordLinkFieldId := some "fldM" } }

/-- A count field (a `manual` type) with id `fldM`. -/
def exCountField : RawField :=
  { id := "fldM", name := "Other", type := "count", description := none,
    options := none }

/-- A rollup field whose options object is present but empty (`{}`), so every
expected sub-field is lacking. -/
def exEmptyOptsRollup : RawField :=
  { id := "fldE", name := "Roll2", type := "rollup", description := none,
    options := some emptyRawOptions }

/-- A plain text field. -/
def exTextField : RawField :=
  { id := "fldT", name := "Name", type := "singleLineText", description := none,
    options := none }

/-- The raw choice list of `exSelectField`. -/
def exChoices : List RawChoice :=
  [{ id := some "selA", name := "Open", color := some "greenBright" },
   { id := some "selB", name := "Closed", color := none }]

/-- A select field with two choices, one of them colorless. -/
def exSelectField : RawField :=
  { id := "fldS", name := "Status", type := "singleSelect", description := none,
    options := some { emptyRawOptions with choices := some exChoices } }

/-- A forward link field pointing at table `tbl1`. -/
def exLinkField : RawField :=
  { id := "fldL", name := "Owner", type := "multipleRecordLinks", description := none,
    options := some { emptyRawOptions with linkedTableId := some "tbl1" } }

/-- A link field whose `linkedTableId` names no table of the schema. -/
def exDanglingLinkField : RawField :=
  { id := "fldL", name := "Owner", type := "multipleRecordLinks", description := none,
    options := some { emptyRawOptions with linkedTableId := some "tblZZZ" } }

/-- A small table exercising several categories. -/
def exTable : RawTable :=
  { id := "tbl1", name := "Tasks", description := none, primaryFieldId := "fldT",
    fields := [exTextField, exLinkField, exFormulaField, exCountField] }

/-- Schema for the C5 counterexample: a rollup whose `recordLinkFieldId` is the
id of another `manual` (count) field of the same table. -/
def exC5Schema : RawSchema :=
  { tables := [{ id := "tblA", name := "T", description := none,
                 primaryFieldId := "fldR", fields := [exRollupField, exCountField] }] }

/-- Schema for the C4 counterexample: a table whose name is the empty string,
containing a link field that points back at the table itself. -/
def exC4Schema : RawSchema :=
  { tables := [{ id := "tbl1", name := "", description := none,
                 primaryFieldId := "fldL", fields := [exLinkField] }] }

/-- Schema for the C7 counterexample: one table with a dangling link field. -/
def exC7Schema : RawSchema :=
  { tables := [{ id := "tbl1", name := "A", description := none,
                 primaryFieldId := "fldL", fields := [exDanglingLinkField] }] }

/-- Schema for witnesses of the resolution theorems: two tables, the second
linking to the first, with a rollup over the link. -/
def exTwoTableSchema : RawSchema :=
  { tables :=
      [{ id := "tblA", name := "People", description := none,
         primaryFieldId := "fldT",
         fields := [exTextField,
                    { id := "fldScore", name := "Score", type := "number",
                      description := none, options := none }] },
       { id := "tblB", name := "Projects", description := none,
         primaryFieldId := "fldT2",
         fields :=
           [{ id := "fldT2", name := "Title", type := "singleLineText",
              description := none, options := none },
            { id := "fldOwn", name := "Owner", type := "multipleRecordLinks",
              description := none,
              options := some { emptyRawOptions with linkedTableId := some "tblA" } },
            { id := "fldTot", name := "Total", type := "rollup",
              description := none,
              options := some { emptyRawOptions with
                recordLinkFieldId := some "fldOwn",
                fieldIdInLinkedTable := some "fldScore",
                resultFormula := some "SUM(values)" } }] }] }

/-- An OPTIONS request with no headers at all (C3 counterexample input). -/
def exOptionsReq : Request :=
  { method := "OPTIONS", origin := none, targetUrl := none,
    airtableMethod := none, authorization := none, body := "" }

/-- A POST with a valid target URL but no `X-Airtable-Method` header
(C8 counterexample input). -/
def exPostNoMethodReq : Request :=
  { method := "POST", origin := some "https://example.github.io",
    targetUrl := some "https://api.airtable.com/v0/meta/bases/app1/tables",
    airtableMethod := none, authorization := some "Bearer patX", body := "payload" }

/-- A GET request with a bad target URL (witness input for the relay theorems). -/
def exGetBadReq : Request :=
  { method := "GET", origin := some "https://example.github.io",
    targetUrl := some "https://evil.example.com/", airtableMethod := none,
    authorization := none, body := "" }

/-! ## Derived definitions used to state the theorems -/

/-- The fields the `recordLinkFieldId` loop (lines 533-534) replaces for: every
field of every table's `creatableFields ++ linkFields` whose `originalId` is
`rid`, in traversal order. -/
def matchesCL (tables : List NormTable) (rid : String) : List NormField :=
  (tables.map (fun t =>
    (t.creatableFields ++ t.linkFields).filter (fun f => f.originalId == rid))).flatten

/-- The fields the `fieldIdInLinkedTable` loop (line 553) considers: every
field of every table's `linkFields ++ inverseLinkFields` whose `originalId`
is `rid`, in traversal order. -/
def matchesLI (tables : List NormTable) (rid : String) : List NormField :=
  (tables.map (fun t =>
    (t.linkFields ++ t.inverseLinkFields).filter (fun f => f.originalId == rid))).flatten

/-- The claim's antecedent for the relay: the `X-Airtable-Target-Url` header is
missing, or does not start with `https://api.airtable.com/`. -/
def badTargetHeader (req : Request) : Prop :=
  req.targetUrl = none ∨
    ∃ u, req.targetUrl = some u ∧ jsStartsWith u "https://api.airtable.com/" = false

set_option maxRecDepth 100000

/-- The pre-resolution normalized tables of `exTwoTableSchema`. -/
def exPreTables : List NormTable := exTwoTableSchema.tables.map processTable

/-- The normalized `People` table. -/
def exPeopleNT : NormTable := exPreTables.get ⟨0, by decide⟩

/-- The normalized `Score` field of `People`. -/
def exScoreNF : NormField := exPeopleNT.creatableFields.get ⟨1, by decide⟩

/-- The normalized `Owner` link field of `Projects`. -/
def exOwnerNF : NormField := (exPreTables.get ⟨1, by decide⟩).linkFields.get ⟨0, by decide⟩

/-- The `originalOptions` of the `Total` rollup field of `Projects`. -/
def exRollOO : RawOptions :=
  { emptyRawOptions with
    recordLinkFieldId := some "fldOwn"
    fieldIdInLinkedTable := some "fldScore"
    resultFormula := some "SUM(values)" }

/-- The fully processed `Projects` table of `exTwoTableSchema`. -/
def exProjectsOut : NormTable := (processSchema exTwoTableSchema none).tables.get ⟨1, by decide⟩

/-- The resolved `Owner` link field of the processed `Projects` table. -/
def exOwnerOut : NormField := exProjectsOut.linkFields.get ⟨0, by decide⟩

/-! ## Helper lemmas -/

theorem jsTruthyOB_iff (o : Option Bool) : jsTruthyOB o = true ↔ o = some true := by
  cases o with
  | none => simp [jsTruthyOB]
  | some b => cases b <;> simp [jsTruthyOB]

theorem classifyField_det (f g : RawField) (ht : f.type = g.type)
    (ho : f.options = g.options) : classifyField f = classifyField g := by
  simp only [classifyField, ht, ho]

/-- Claim C1: for every raw field, `classifyField` realizes exactly the spec's
decision table — `manual` iff the type is one of the four non-creatable types,
`autoSystem` iff one of the five system types, `inverseLink` iff a record link
with `options.isReversed` true, `link` iff a record link not reversed, and
`creatable` otherwise; and the result depends only on `type` and `options`. -/
theorem classify_decision_table :
    (∀ f : RawField,
      ((classifyField f = Category.manual) ↔
        (f.type = "formula" ∨ f.type = "rollup" ∨
          f.type = "multipleLookupValues" ∨ f.type = "count")) ∧
      ((classifyField f = Category.autoSystem) ↔
        (f.type = "autoNumber" ∨ f.type = "createdTime" ∨
          f.type = "lastModifiedTime" ∨ f.type = "createdBy" ∨
          f.type = "lastModifiedBy")) ∧
      ((classifyField f = Category.inverseLink) ↔
        (f.type = "multipleRecordLinks" ∧
          f.options.bind RawOptions.isReversed = some true)) ∧
      ((classifyField f = Category.link) ↔
        (f.type = "multipleRecordLinks" ∧
          ¬ f.options.bind RawOptions.isReversed = some true)) ∧
      ((classifyField f = Category.creatable) ↔
        (¬ (f.type = "formula" ∨ f.type = "rollup" ∨
            f.type = "multipleLookupValues" ∨ f.type = "count") ∧
         ¬ (f.type = "autoNumber" ∨ f.type = "createdTime" ∨
            f.type = "lastModifiedTime" ∨ f.type = "createdBy" ∨
            f.type = "lastModifiedBy") ∧
         ¬ f.type = "multipleRecordLinks"))) ∧
    (∀ f g : RawField, f.type = g.type → f.options = g.options →
      classifyField f = classifyField g) := by
  constructor
  · intro f
    have hrev := jsTruthyOB_iff (f.options.bind RawOptions.isReversed)
    simp only [classifyField, NON_CREATABLE_TYPES, AUTO_SYSTEM_TYPES, LINK_TYPE]
    split_ifs with h1 h2 h3 h4
    · simp only [Bool.or_eq_true, beq_iff_eq] at h1
      obtain ((h | h) | h) | h := h1 <;> simp [h]
    · simp only [Bool.or_eq_true, beq_iff_eq] at h2
      obtain (((h | h) | h) | h) | h := h2 <;> simp [h]
    · simp only [beq_iff_eq] at h3
      have h4x := hrev.mp h4
      simp [h3, h4x]
    · simp only [beq_iff_eq] at h3
      have h4x : ¬ f.options.bind RawOptions.isReversed = some true :=
        fun hx => h4 (hrev.mpr hx)
      simp [h3, h4x]
    · simp only [Bool.or_eq_true, beq_iff_eq, not_or] at h1 h2
      simp only [beq_iff_eq] at h3
      simp [h1, h2, h3]
  · exact classifyField_det

theorem normalizeField_originalId (f : RawField) :
    (normalizeField f).originalId = f.id := by
  cases hc : classifyField f <;> simp [normalizeField, hc]

theorem processFields_foldl (fields : List RawField) (acc : Parts) :
    fields.foldl pushField acc =
      { creatable := acc.creatable ++
          (fields.filter (fun f => classifyField f == Category.creatable)).map normalizeField,
        link := acc.link ++
          (fields.filter (fun f => classifyField f == Category.link)).map normalizeField,
        manual := acc.manual ++
          (fields.filter (fun f => classifyField f == Category.manual)).map normalizeField,
        autoSystem := acc.autoSystem ++
          (fields.filter (fun f => classifyField f == Category.autoSystem)).map normalizeField,
        inverseLink := acc.inverseLink ++
          (fields.filter (fun f => classifyField f == Category.inverseLink)).map normalizeField } := by
  induction fields generalizing acc with
  | nil => simp
  | cons f fs ih =>
    rw [List.foldl_cons, ih]
    cases hc : classifyField f <;>
      simp [pushField, hc, List.filter_cons, List.append_assoc]

theorem count_classified_filter (a : RawField) (c : Category) (l : List RawField) :
    List.count a (l.filter (fun f => classifyField f == c)) =
      if classifyField a = c then List.count a l else 0 := by
  split_ifs with h
  · exact List.count_filter (by simp [h])
  · rw [List.count_eq_zero]
    intro hmem
    exact h (by simpa using (List.mem_filter.mp hmem).2)

theorem classified_filters_perm (l : List RawField) :
    (l.filter (fun f => classifyField f == Category.creatable) ++
     (l.filter (fun f => classifyField f == Category.link) ++
      (l.filter (fun f => classifyField f == Category.manual) ++
       (l.filter (fun f => classifyField f == Category.autoSystem) ++
        l.filter (fun f => classifyField f == Category.inverseLink))))).Perm l := by
  rw [List.perm_iff_count]
  intro a
  simp only [List.count_append, count_classified_filter]
  cases classifyField a <;> simp

theorem disjoint_of_map_nodup {α β : Type _} (g : α → β) {A B : List α}
    (h : ((A ++ B).map g).Nodup) : A.Disjoint B := by
  intro a ha hb
  rw [List.map_append, List.nodup_append] at h
  exact h.2.2 (List.mem_map.mpr ⟨a, ha, rfl⟩) (List.mem_map.mpr ⟨a, hb, rfl⟩)

theorem disjoint_of_sub {α β : Type _} (g : α → β) {A B L : List α}
    (hs : (A ++ B).Sublist L) (h : (L.map g).Nodup) : A.Disjoint B :=
  disjoint_of_map_nodup g (List.Nodup.sublist (hs.map g) h)

theorem five_disjoint {α β : Type _} (g : α → β) (a b c d e : List α)
    (h : ((a ++ (b ++ (c ++ (d ++ e)))).map g).Nodup) :
    a.Disjoint b ∧ a.Disjoint c ∧ a.Disjoint d ∧ a.Disjoint e ∧
      b.Disjoint c ∧ b.Disjoint d ∧ b.Disjoint e ∧
      c.Disjoint d ∧ c.Disjoint e ∧ d.Disjoint e := by
  refine ⟨disjoint_of_sub g ?_ h, disjoint_of_sub g ?_ h, disjoint_of_sub g ?_ h,
    disjoint_of_sub g ?_ h, disjoint_of_sub g ?_ h, disjoint_of_sub g ?_ h,
    disjoint_of_sub g ?_ h, disjoint_of_sub g ?_ h, disjoint_of_sub g ?_ h,
    disjoint_of_sub g ?_ h⟩
  · exact (List.Sublist.refl a).append (List.sublist_append_left _ _)
  · exact (List.Sublist.refl a).append
      ((List.sublist_append_left _ _).trans (List.sublist_append_right _ _))
  · exact (List.Sublist.refl a).append
      (((List.sublist_append_left _ _).trans (List.sublist_append_right _ _)).trans
        (List.sublist_append_right _ _))
  · exact (List.Sublist.refl a).append
      (((List.sublist_append_right _ _).trans (List.sublist_append_right _ _)).trans
        (List.sublist_append_right _ _))
  · exact ((List.Sublist.refl b).append (List.sublist_append_left _ _)).trans
      (List.sublist_append_right _ _)
  · exact ((List.Sublist.refl b).append
      ((List.sublist_append_left _ _).trans (List.sublist_append_right _ _))).trans
      (List.sublist_append_right _ _)
  · exact ((List.Sublist.refl b).append
      ((List.sublist_append_right _ _).trans (List.sublist_append_right _ _))).trans
      (List.sublist_append_right _ _)
  · exact (((List.Sublist.refl c).append (List.sublist_append_left _ _)).trans
      (List.sublist_append_right _ _)).trans (List.sublist_append_right _ _)
  · exact (((List.Sublist.refl c).append (List.sublist_append_right _ _)).trans
      (List.sublist_append_right _ _)).trans (List.sublist_append_right _ _)
  · exact ((List.sublist_append_right _ _).trans
      (List.sublist_append_right _ _)).trans (List.sublist_append_right _ _)

theorem normalizeField_type (f : RawField) : (normalizeField f).type = f.type := by
  cases hc : classifyField f <;> simp [normalizeField, hc]
theorem normalizeField_options (f : RawField) :
    (normalizeField f).options = f.options.map cleanOptionsOf := by
  cases hc : classifyField f <;> simp [normalizeField, hc]

theorem cleanOptionsOf_isReversed (o : RawOptions) :
    (cleanOptionsOf o).isReversed = o.isReversed := rfl

/-- A normalized record determines its raw field's category: the record keeps
`type` and the cleaned options keep `isReversed`, which are all `classifyField`
reads. -/
theorem classify_eq_of_normalize_eq {f1 f2 : RawField}
    (h : normalizeField f1 = normalizeField f2) :
    classifyField f1 = classifyField f2 := by
  have ht : f1.type = f2.type := by
    have := congrArg NormField.type h
    rwa [normalizeField_type, normalizeField_type] at this
  have ho : f1.options.map cleanOptionsOf = f2.options.map cleanOptionsOf := by
    have := congrArg NormField.options h
    rwa [normalizeField_options, normalizeField_options] at this
  have hrev : f1.options.bind RawOptions.isReversed =
      f2.options.bind RawOptions.isReversed := by
    cases ho1 : f1.options with
    | none =>
      cases ho2 : f2.options with
      | none => rfl
      | some o2 => rw [ho1, ho2] at ho; simp at ho
    | some o1 =>
      cases ho2 : f2.options with
      | none => rw [ho1, ho2] at ho; simp at ho
      | some o2 =>
        rw [ho1, ho2] at ho
        simp at ho
        have hr := congrArg CleanOptions.isReversed ho
        rw [cleanOptionsOf_isReversed, cleanOptionsOf_isReversed] at hr
        simp [ho1, ho2, hr]
  simp only [classifyField, ht, hrev]

/-- Two different category filters are mapped by `normalizeField` onto disjoint
record lists (unconditionally: a record recovers its category). -/
theorem filterc_disjoint (l : List RawField) (c c' : Category) (hne : c ≠ c') :
    ((l.filter (fun f => classifyField f == c)).map normalizeField).Disjoint
      ((l.filter (fun f => classifyField f == c')).map normalizeField) := by
  intro r hr hr'
  obtain ⟨f1, hf1, rfl⟩ := List.mem_map.mp hr
  obtain ⟨f2, hf2, heq⟩ := List.mem_map.mp hr'
  have hc1 : classifyField f1 = c := by simpa using (List.mem_filter.mp hf1).2
  have hc2 : classifyField f2 = c' := by simpa using (List.mem_filter.mp hf2).2
  exact hne (hc1 ▸ hc2 ▸ classify_eq_of_normalize_eq heq.symm)

/-- Claim C2: `classifyField` is total (every field falls in one of the five
categories), and the five per-table partitions of `processSchema` are exactly
the classified fields in order (each raw field contributes exactly one
normalized record to exactly its category's list); their concatenation is a
permutation of the raw field list (nothing dropped or duplicated), and the
five lists are pairwise disjoint. -/
theorem partition_exhaustive_disjoint (t : RawTable) :
    ((processTable t).creatableFields =
        (t.fields.filter (fun f => classifyField f == Category.creatable)).map normalizeField ∧
      (processTable t).linkFields =
        (t.fields.filter (fun f => classifyField f == Category.link)).map normalizeField ∧
      (processTable t).manualFields =
        (t.fields.filter (fun f => classifyField f == Category.manual)).map normalizeField ∧
      (processTable t).autoSystemFields =
        (t.fields.filter (fun f => classifyField f == Category.autoSystem)).map normalizeField ∧
      (processTable t).inverseLinkFields =
        (t.fields.filter (fun f => classifyField f == Category.inverseLink)).map normalizeField) ∧
    (((processTable t).creatableFields ++ ((processTable t).linkFields ++
        ((processTable t).manualFields ++ ((processTable t).autoSystemFields ++
          (processTable t).inverseLinkFields)))).map NormField.originalId).Perm
      (t.fields.map RawField.id) ∧
    ((processTable t).creatableFields.Disjoint (processTable t).linkFields ∧
      (processTable t).creatableFields.Disjoint (processTable t).manualFields ∧
      (processTable t).creatableFields.Disjoint (processTable t).autoSystemFields ∧
      (processTable t).creatableFields.Disjoint (processTable t).inverseLinkFields ∧
      (processTable t).linkFields.Disjoint (processTable t).manualFields ∧
      (processTable t).linkFields.Disjoint (processTable t).autoSystemFields ∧
      (processTable t).linkFields.Disjoint (processTable t).inverseLinkFields ∧
      (processTable t).manualFields.Disjoint (processTable t).autoSystemFields ∧
      (processTable t).manualFields.Disjoint (processTable t).inverseLinkFields ∧
      (processTable t).autoSystemFields.Disjoint (processTable t).inverseLinkFields) ∧
    (∀ f : RawField, classifyField f = Category.creatable ∨
      classifyField f = Category.link ∨ classifyField f = Category.manual ∨
      classifyField f = Category.autoSystem ∨ classifyField f = Category.inverseLink) := by
  have hfold := processFields_foldl t.fields ⟨[], [], [], [], []⟩
  have h1 : (processTable t).creatableFields =
      (t.fields.filter (fun f => classifyField f == Category.creatable)).map normalizeField := by
    show (processFields t.fields).creatable = _
    rw [show processFields t.fields = t.fields.foldl pushField ⟨[], [], [], [], []⟩ from rfl,
      hfold]
    simp
  have h2 : (processTable t).linkFields =
      (t.fields.filter (fun f => classifyField f == Category.link)).map normalizeField := by
    show (processFields t.fields).link = _
    rw [show processFields t.fields = t.fields.foldl pushField ⟨[], [], [], [], []⟩ from rfl,
      hfold]
    simp
  have h3 : (processTable t).manualFields =
      (t.fields.filter (fun f => classifyField f == Category.manual)).map normalizeField := by
    show (processFields t.fields).manual = _
    rw [show processFields t.fields = t.fields.foldl pushField ⟨[], [], [], [], []⟩ from rfl,
      hfold]
    simp
  have h4 : (processTable t).autoSystemFields =
      (t.fields.filter (fun f => classifyField f == Category.autoSystem)).map normalizeField := by
    show (processFields t.fields).autoSystem = _
    rw [show processFields t.fields = t.fields.foldl pushField ⟨[], [], [], [], []⟩ from rfl,
      hfold]
    simp
  have h5 : (processTable t).inverseLinkFields =
      (t.fields.filter (fun f => classifyField f == Category.inverseLink)).map normalizeField := by
    show (processFields t.fields).inverseLink = _
    rw [show processFields t.fields = t.fields.foldl pushField ⟨[], [], [], [], []⟩ from rfl,
      hfold]
    simp
  have hperm : (((processTable t).creatableFields ++ ((processTable t).linkFields ++
      ((processTable t).manualFields ++ ((processTable t).autoSystemFields ++
        (processTable t).inverseLinkFields)))).map NormField.originalId).Perm
      (t.fields.map RawField.id) := by
    rw [h1, h2, h3, h4, h5]
    rw [← List.map_append, ← List.map_append, ← List.map_append, ← List.map_append,
      List.map_map]
    have hcomp : (t.fields.filter (fun f => classifyField f == Category.creatable) ++
        (t.fields.filter (fun f => classifyField f == Category.link) ++
          (t.fields.filter (fun f => classifyField f == Category.manual) ++
            (t.fields.filter (fun f => classifyField f == Category.autoSystem) ++
              t.fields.filter (fun f => classifyField f == Category.inverseLink))))).map
        (NormField.originalId ∘ normalizeField) =
        (t.fields.filter (fun f => classifyField f == Category.creatable) ++
        (t.fields.filter (fun f => classifyField f == Category.link) ++
          (t.fields.filter (fun f => classifyField f == Category.manual) ++
            (t.fields.filter (fun f => classifyField f == Category.autoSystem) ++
              t.fields.filter (fun f => classifyField f == Category.inverseLink))))).map
        RawField.id :=
      List.map_congr_left (fun a _ => by
        simp [Function.comp, normalizeField_originalId])
    rw [hcomp]
    exact (classified_filters_perm t.fields).map RawField.id
  refine ⟨⟨h1, h2, h3, h4, h5⟩, hperm, ?_, ?_⟩
  · rw [h1, h2, h3, h4, h5]
    exact ⟨filterc_disjoint _ _ _ (by decide), filterc_disjoint _ _ _ (by decide),
      filterc_disjoint _ _ _ (by decide), filterc_disjoint _ _ _ (by decide),
      filterc_disjoint _ _ _ (by decide), filterc_disjoint _ _ _ (by decide),
      filterc_disjoint _ _ _ (by decide), filterc_disjoint _ _ _ (by decide),
      filterc_disjoint _ _ _ (by decide), filterc_disjoint _ _ _ (by decide)⟩
  · intro f
    cases hc : classifyField f
    · exact Or.inl rfl
    · exact Or.inr (Or.inl rfl)
    · exact Or.inr (Or.inr (Or.inl rfl))
    · exact Or.inr (Or.inr (Or.inr (Or.inl rfl)))
    · exact Or.inr (Or.inr (Or.inr (Or.inr rfl)))

/-- Witness for C2 at a concrete table: the partitions are disjoint and
exhaustive. -/
theorem partition_exhaustive_disjoint_witness :
    (processTable exTable).creatableFields.Disjoint (processTable exTable).linkFields ∧
      (processTable exTable).manualFields =
        (exTable.fields.filter (fun f => classifyField f == Category.manual)).map
          normalizeField :=
  ⟨(partition_exhaustive_disjoint exTable).2.2.1.1,
   (partition_exhaustive_disjoint exTable).1.2.2.1⟩

theorem data_append_ne {a : String} (h : a.data ≠ []) (t : String) :
    (a ++ t).data ≠ [] := by
  rw [String.data_append]
  intro hx
  exact h (List.append_eq_nil.mp hx).1

theorem str_ne_empty_of_data {s : String} (h : s.data ≠ []) : s ≠ "" := by
  intro he
  exact h (by rw [he])

/-- Claim C6: `buildManualInstructions` is pure and total over the four manual
types (it is a total Lean function of the field alone): both returned strings
are non-empty whatever the options hold, and whenever the expected sub-fields
are lacking — `options` absent entirely, present but empty, or holding an
empty-string value (all the cases JS truthiness treats as missing) — the
config summary is the per-type explicit "check the original base" default. -/
theorem buildManualInstructions_total : ∀ f : RawField,
    (f.type = "formula" ∨ f.type = "rollup" ∨
      f.type = "multipleLookupValues" ∨ f.type = "count") →
    (buildManualInstructions f).description ≠ "" ∧
    (buildManualInstructions f).cellInstructions ≠ "" ∧
    ((f.type = "formula" →
        jsTruthyOS (f.options.bind RawOptions.formula) = false →
        configSummaryOf f = "Formula: (not available — check the original base)") ∧
     (f.type = "rollup" →
        jsTruthyOS (f.options.bind RawOptions.fieldIdInLinkedTable) = false →
        jsTruthyOS (f.options.bind RawOptions.recordLinkFieldId) = false →
        jsTruthyOS (f.options.bind RawOptions.resultFormula) = false →
        configSummaryOf f = "(check the original base for rollup configuration)") ∧
     (f.type = "multipleLookupValues" →
        jsTruthyOS (f.options.bind RawOptions.fieldIdInLinkedTable) = false →
        jsTruthyOS (f.options.bind RawOptions.recordLinkFieldId) = false →
        configSummaryOf f = "(check the original base for lookup configuration)") ∧
     (f.type = "count" →
        jsTruthyOS (f.options.bind RawOptions.recordLinkFieldId) = false →
        configSummaryOf f = "(check the original base for count configuration)")) := by
  intro f _
  refine ⟨?_, ?_, ?_⟩
  · have hd : (buildManualInstructions f).description =
        "⚠️ MANUAL SETUP REQUIRED — " ++ typeLabelOf f.type ++ ": " ++
          firstLine (configSummaryOf f) := rfl
    rw [hd]
    exact str_ne_empty_of_data (data_append_ne (data_append_ne (data_append_ne (by decide) _) _) _)
  · have hc : (buildManualInstructions f).cellInstructions =
        "⚠️ MANUAL SETUP REQUIRED" ++ "\n" ++ joinNL
          ["",
           "Field type: " ++ typeLabelOf f.type ++ " (currently Long Text — you must change it)",
           "",
           configSummaryOf f,
           "",
           "Steps:",
           "1. Click this field\x27s column header",
           "2. Select \"Customize field type\"",
           "3. Change the type from \"Long text\" to \"" ++ typeLabelOf f.type ++ "\"",
           "4. Configure using the information above",
           "5. Click \"Save\"",
           "6. Delete this instruction row when you\x27re done with ALL fields in this table"] := rfl
    rw [hc]
    exact str_ne_empty_of_data (data_append_ne (data_append_ne (by decide) _) _)
  · refine ⟨?_, ?_, ?_, ?_⟩
    · intro ht hfo
      simp [configSummaryOf, ht, hfo]
    · intro ht h1 h2 h3
      simp [configSummaryOf, ht, h1, h2, h3, optLineOf, joinNL]
    · intro ht h1 h2
      simp [configSummaryOf, ht, h1, h2, optLineOf, joinNL]
    · intro ht h1
      simp [configSummaryOf, ht, h1]

/-- Witness for C6 at a concrete rollup field whose options object is present
but empty: both strings non-empty and the rollup default summary applies. -/
theorem buildManualInstructions_total_witness :
    (buildManualInstructions exEmptyOptsRollup).description ≠ "" ∧
    (buildManualInstructions exEmptyOptsRollup).cellInstructions ≠ "" ∧
    configSummaryOf exEmptyOptsRollup =
      "(check the original base for rollup configuration)" :=
  ⟨(buildManualInstructions_total exEmptyOptsRollup (Or.inr (Or.inl rfl))).1,
   (buildManualInstructions_total exEmptyOptsRollup (Or.inr (Or.inl rfl))).2.1,
   (buildManualInstructions_total exEmptyOptsRollup (Or.inr (Or.inl rfl))).2.2.2.1
     rfl (by decide) (by decide) (by decide)⟩

/-- Claim C9: whenever a raw field's options carry a `choices` list, the
normalized options carry a choice list of the same length and order whose
entries hold exactly the choice's `name` plus its `color` when the raw color is
present and non-empty (JS truthiness); the entry type `CleanChoice` has no `id`
field, so no auto-generated choice identifier (or any other key) survives. -/
theorem choices_sanitized : ∀ (f : RawField) (o : RawOptions) (cs : List RawChoice),
    f.options = some o → o.choices = some cs →
    ∃ co : CleanOptions, (normalizeField f).options = some co ∧
      ∃ cs' : List CleanChoice, co.choices = some cs' ∧
        cs'.length = cs.length ∧
        ∀ i : Nat, cs'[i]? =
          (cs[i]?).map (fun c =>
            { name := c.name, color := if jsTruthyOS c.color then c.color else none }) := by
  intro f o cs ho hc
  refine ⟨cleanOptionsOf o, by rw [normalizeField_options, ho]; rfl,
    cs.map stripChoice, ?_, ?_, ?_⟩
  · simp [cleanOptionsOf, hc]
  · simp
  · intro i
    rw [List.getElem?_map]
    cases cs[i]? <;> simp [stripChoice]

/-- Witness for C9 at a concrete select field with one colored and one
colorless choice. -/
theorem choices_sanitized_witness :
    ∃ co : CleanOptions, (normalizeField exSelectField).options = some co ∧
      ∃ cs' : List CleanChoice, co.choices = some cs' ∧
        cs'.length = exChoices.length ∧
        ∀ i : Nat, cs'[i]? =
          (exChoices[i]?).map (fun c =>
            { name := c.name, color := if jsTruthyOS c.color then c.color else none }) :=
  choices_sanitized exSelectField { emptyRawOptions with choices := some exChoices }
    exChoices rfl rfl

theorem isOriginAllowed_star (origin : String) :
    isOriginAllowed ALLOWED_ORIGINS origin = true := rfl

theorem workerReject (req : Request) (up : Upstream) (hm : req.method ≠ "OPTIONS")
    (h : req.method ≠ "POST" ∨ badTargetHeader req) :
    (workerFetch ALLOWED_ORIGINS req up).1 = none ∧
      400 ≤ (workerFetch ALLOWED_ORIGINS req up).2.status := by
  have hmb : (req.method == "OPTIONS") = false := by simp [hm]
  by_cases hp : req.method = "POST"
  · have hb : badTargetHeader req := by
      obtain h | h := h
      · exact absurd hp h
      · exact h
    have hpb : (req.method == "POST") = true := by simp [hp]
    have htc : (jsTruthyOS req.targetUrl &&
        jsStartsWith (jsOrEmpty req.targetUrl) "https://api.airtable.com/") = false := by
      obtain hb1 | ⟨u, hu, hs⟩ := hb
      · simp [hb1, jsTruthyOS]
      · simp [hu, jsOrEmpty, hs]
    simp [workerFetch, hmb, hpb, isOriginAllowed_star, htc, jsonResponse]
  · have hpb : (req.method == "POST") = false := by simp [hp]
    simp [workerFetch, hmb, hpb, jsonResponse]

/-- Claim C3 counterexample: an OPTIONS request whose `X-Airtable-Target-Url`
header is missing is answered with status 204 — a success, not an error
status — because the preflight branch runs before the target-URL check.  (No
upstream fetch is issued, so only the error-status half of the claim fails.) -/
theorem relay_target_check_cex :
    exOptionsReq.targetUrl = none ∧
    (workerFetch ALLOWED_ORIGINS exOptionsReq (Upstream.ok 200 "x")).1 = none ∧
    (workerFetch ALLOWED_ORIGINS exOptionsReq (Upstream.ok 200 "x")).2.status = 204 ∧
    ¬ 400 ≤ (workerFetch ALLOWED_ORIGINS exOptionsReq (Upstream.ok 200 "x")).2.status := by
  decide

/-- Claim C3 (amended): for every non-OPTIONS request whose target-URL header
is missing or does not start with `https://api.airtable.com/`, the relay
answers with an error status (≥ 400) and never issues an upstream fetch. -/
theorem relay_rejects_bad_target : ∀ (req : Request) (up : Upstream),
    req.method ≠ "OPTIONS" → badTargetHeader req →
    (workerFetch ALLOWED_ORIGINS req up).1 = none ∧
      400 ≤ (workerFetch ALLOWED_ORIGINS req up).2.status :=
  fun req up hm hb => workerReject req up hm (Or.inr hb)

/-- Witness for C3 at a concrete GET with an off-origin target URL. -/
theorem relay_rejects_bad_target_witness :
    (workerFetch ALLOWED_ORIGINS exGetBadReq (Upstream.ok 200 "x")).1 = none ∧
      400 ≤ (workerFetch ALLOWED_ORIGINS exGetBadReq (Upstream.ok 200 "x")).2.status :=
  relay_rejects_bad_target exGetBadReq (Upstream.ok 200 "x") (by decide)
    (Or.inr ⟨"https://evil.example.com/", rfl, by decide⟩)

/-- Claim C8 counterexample: a POST with a valid target URL but **no**
`X-Airtable-Method` header is not rejected: the worker defaults the method to
POST and forwards the request upstream, returning the upstream 200. -/
theorem relay_method_default_cex :
    exPostNoMethodReq.airtableMethod = none ∧
    (workerFetch ALLOWED_ORIGINS exPostNoMethodReq (Upstream.ok 200 "ok")).1 =
      some { url := "https://api.airtable.com/v0/meta/bases/app1/tables",
             method := "POST", authorization := some "Bearer patX",
             body := some "payload" } ∧
    (workerFetch ALLOWED_ORIGINS exPostNoMethodReq (Upstream.ok 200 "ok")).2.status = 200 ∧
    ¬ 400 ≤ (workerFetch ALLOWED_ORIGINS exPostNoMethodReq (Upstream.ok 200 "ok")).2.status := by
  decide

/-- Claim C8 (amended): for every non-OPTIONS request, a non-POST method or a
missing/invalid target-URL header is rejected with an error status and not
forwarded; a missing `X-Airtable-Method` header is *not* rejected — the worker
defaults the upstream method to POST and forwards. -/
theorem relay_contract_amended : ∀ (req : Request) (up : Upstream),
    req.method ≠ "OPTIONS" →
    ((req.method ≠ "POST" ∨ badTargetHeader req) →
      (workerFetch ALLOWED_ORIGINS req up).1 = none ∧
        400 ≤ (workerFetch ALLOWED_ORIGINS req up).2.status) ∧
    (req.method = "POST" → req.airtableMethod = none →
      ∀ u, req.targetUrl = some u →
        jsStartsWith u "https://api.airtable.com/" = true →
        ∃ ur : UpstreamReq, (workerFetch ALLOWED_ORIGINS req up).1 = some ur ∧
          ur.method = "POST") := by
  intro req up hm
  refine ⟨workerReject req up hm, ?_⟩
  intro hp hn u hu hs
  have hmb : (req.method == "OPTIONS") = false := by simp [hm]
  have hpb : (req.method == "POST") = true := by simp [hp]
  have hue : u ≠ "" := by
    intro he
    rw [he] at hs
    exact absurd hs (by decide)
  have htc : (jsTruthyOS req.targetUrl &&
      jsStartsWith (jsOrEmpty req.targetUrl) "https://api.airtable.com/") = true := by
    simp [hu, jsOrEmpty, jsTruthyOS, hs, hue]
  have hup : upperStr "POST" = "POST" := by decide
  cases up with
  | ok st b =>
    refine ⟨{ url := u, method := "POST",
              authorization := if jsTruthyOS req.authorization then req.authorization else none,
              body := some req.body }, ?_, rfl⟩
    simp [workerFetch, hmb, hpb, isOriginAllowed_star, htc, hn, hu, hue, hs, hup,
      jsOrEmpty, jsTruthyOS]
  | err m =>
    refine ⟨{ url := u, method := "POST",
              authorization := if jsTruthyOS req.authorization then req.authorization else none,
              body := some req.body }, ?_, rfl⟩
    simp [workerFetch, hmb, hpb, isOriginAllowed_star, htc, hn, hu, hue, hs, hup,
      jsOrEmpty, jsTruthyOS]

/-- Witness for C8 at a concrete POST without a method header: forwarded with
method POST. -/
theorem relay_contract_amended_witness :
    ∃ ur : UpstreamReq,
      (workerFetch ALLOWED_ORIGINS exPostNoMethodReq (Upstream.ok 200 "ok")).1 = some ur ∧
        ur.method = "POST" :=
  (relay_contract_amended exPostNoMethodReq (Upstream.ok 200 "ok") (by decide)).2 rfl rfl
    "https://api.airtable.com/v0/meta/bases/app1/tables" rfl (by decide)

/-- Claim C10: every response the worker returns to a non-OPTIONS request —
upstream forward, method rejection, origin rejection, bad-target rejection, or
upstream-failure 502 — carries an `Access-Control-Allow-Origin` header (for any
configured allowlist); only the OPTIONS-preflight rejection branch returns a
response with no headers at all. -/
theorem relay_cors_header : ∀ (allowed : List String) (req : Request) (up : Upstream),
    (req.method ≠ "OPTIONS" →
      ∃ v, ("Access-Control-Allow-Origin", v) ∈ (workerFetch allowed req up).2.headers) ∧
    (req.method = "OPTIONS" →
      isOriginAllowed allowed (jsOrEmpty req.origin) = false →
      (workerFetch allowed req up).2.headers = []) := by
  intro allowed req up
  constructor
  · intro hm
    have hmb : (req.method == "OPTIONS") = false := by simp [hm]
    simp only [workerFetch, hmb, Bool.false_eq_true, if_false]
    split_ifs <;> cases up <;>
      simp only [jsonResponse, List.mem_cons] <;>
      exact ⟨_, Or.inr (Or.inl rfl)⟩
  · intro hm hal
    have hmb : (req.method == "OPTIONS") = true := by simp [hm]
    simp [workerFetch, hmb, handlePreflight, hal]

/-- Witness for C10 at a concrete rejected GET request. -/
theorem relay_cors_header_witness :
    ∃ v, ("Access-Control-Allow-Origin", v) ∈
      (workerFetch ALLOWED_ORIGINS exGetBadReq (Upstream.ok 200 "x")).2.headers :=
  (relay_cors_header ALLOWED_ORIGINS exGetBadReq (Upstream.ok 200 "x")).1 (by decide)

theorem jsLookup_eq_none {m : List (String × String)} {k : String}
    (h : ∀ p ∈ m, p.1 ≠ k) : jsLookup m k = none := by
  induction m with
  | nil => rfl
  | cons p rest ih =>
    have hr := ih (fun q hq => h q (List.mem_cons_of_mem p hq))
    simp [jsLookup, hr, h p (List.mem_cons_self p rest)]

theorem jsLookup_nodup_mem {m : List (String × String)} {k v : String}
    (hnd : (m.map Prod.fst).Nodup) (hmem : (k, v) ∈ m) : jsLookup m k = some v := by
  induction m with
  | nil => cases hmem
  | cons p rest ih =>
    rw [List.map_cons, List.nodup_cons] at hnd
    rcases List.mem_cons.mp hmem with he | hr
    · have hnone : jsLookup rest k = none := by
        apply jsLookup_eq_none
        intro q hq hkq
        exact hnd.1 (List.mem_map.mpr ⟨q, hq, by rw [hkq, ← he]⟩)
      rw [← he]
      simp [jsLookup, hnone]
    · have := ih hnd.2 hr
      simp [jsLookup, this]

theorem processSchema_tables (raw : RawSchema) (bn : Option String) :
    (processSchema raw bn).tables =
      (raw.tables.map processTable).map (fun t =>
        { t with
          linkFields := t.linkFields.map
            (resolveLinkName (tableIdToName (raw.tables.map processTable))),
          manualFields := t.manualFields.map
            (resolveManualField (raw.tables.map processTable)) }) := rfl

theorem tableIdToName_processed (raw : RawSchema) :
    tableIdToName (raw.tables.map processTable) =
      raw.tables.map (fun rt => (rt.id, rt.name)) := by
  rw [tableIdToName, List.map_map]
  rfl

/-- Claim C4 (amended): for every link field of the normalized output with raw
`linkedTableId = tid`: if no raw table has id `tid`, `linkedTableName` is the
raw id itself; and when the raw table ids are distinct and the matching table's
name is non-empty, `linkedTableName` is that table's name.  (The counterexample
shows the non-empty-name proviso is necessary: JS `||` treats an empty table
name as falsy and falls back to the raw id.) -/
theorem link_name_resolution : ∀ (raw : RawSchema) (bn : Option String),
    ∀ t ∈ (processSchema raw bn).tables, ∀ lf ∈ t.linkFields, ∀ tid : String,
      lf.linkedTableId = some tid →
      ((∀ rt ∈ raw.tables, rt.id ≠ tid) → lf.linkedTableName = some tid) ∧
      ((raw.tables.map RawTable.id).Nodup →
        ∀ rt ∈ raw.tables, rt.id = tid → rt.name ≠ "" →
          lf.linkedTableName = some rt.name) := by
  intro raw bn t ht lf hlf tid htid
  rw [processSchema_tables] at ht
  obtain ⟨t0, ht0, rfl⟩ := List.mem_map.mp ht
  obtain ⟨lf0, hlf0, rfl⟩ := List.mem_map.mp hlf
  have htid0 : lf0.linkedTableId = some tid := htid
  constructor
  · intro hno
    have hnone : jsLookup (tableIdToName (raw.tables.map processTable)) tid = none := by
      rw [tableIdToName_processed]
      apply jsLookup_eq_none
      intro p hp
      obtain ⟨rt, hrt, rfl⟩ := List.mem_map.mp hp
      exact hno rt hrt
    simp [resolveLinkName, htid0, hnone, jsTruthyOS]
  · intro hnd rt hrt hid hname
    have hsome : jsLookup (tableIdToName (raw.tables.map processTable)) tid =
        some rt.name := by
      rw [tableIdToName_processed]
      apply jsLookup_nodup_mem
      · rw [List.map_map]
        exact hnd
      · exact List.mem_map.mpr ⟨rt, hrt, by rw [hid]⟩
    simp [resolveLinkName, htid0, hsome, jsTruthyOS, hname]

/-- Claim C4 counterexample: a schema containing a table whose name is the
empty string.  The table with originalId `tbl1` exists, yet the link field's
`linkedTableName` is the raw id `tbl1`, not the table's name `""`: JS `||`
treats the empty name as falsy and falls back to the raw id. -/
theorem link_name_resolution_cex :
    (processSchema exC4Schema none).tables.map (fun t => (t.originalId, t.name)) =
      [("tbl1", "")] ∧
    (processSchema exC4Schema none).tables.map
        (fun t => t.linkFields.map (fun f => (f.linkedTableId, f.linkedTableName))) =
      [[(some "tbl1", some "tbl1")]] ∧
    some "tbl1" ≠ (some "" : Option String) := by
  decide

/-- Witness for C4 at the two-table schema: `Owner` resolves to `People`. -/
theorem link_name_resolution_witness :
    exOwnerOut.linkedTableName = some "People" :=
  (link_name_resolution exTwoTableSchema none exProjectsOut (by decide) exOwnerOut
      (by decide) "tblA" (by decide)).2 (by decide)
    (exTwoTableSchema.tables.get ⟨0, by decide⟩) (by decide) (by decide) (by decide)

/-- Claim C7 (amended): normalization is additive — every link field of the
output retains its raw `linkedTableId` — and the artifact is self-contained
only conditionally: when the raw table ids are distinct and the link target
exists in the schema with a non-empty name, `linkedTableName` is the name of a
table present in the artifact itself (so it is resolvable without the original
base); a dangling `linkedTableId` instead leaves the raw id in
`linkedTableName` (see the counterexample). -/
theorem artifact_self_contained : ∀ (raw : RawSchema) (bn : Option String),
    (raw.tables.map RawTable.id).Nodup →
    ∀ t ∈ (processSchema raw bn).tables, ∀ lf ∈ t.linkFields, ∀ tid : String,
      lf.linkedTableId = some tid →
      ∀ rt ∈ raw.tables, rt.id = tid → rt.name ≠ "" →
        lf.linkedTableName = some rt.name ∧
        ∃ nt ∈ (processSchema raw bn).tables, nt.originalId = tid ∧ nt.name = rt.name := by
  intro raw bn hnd t ht lf hlf tid htid rt hrt hid hname
  constructor
  · rw [processSchema_tables] at ht
    obtain ⟨t0, ht0, rfl⟩ := List.mem_map.mp ht
    obtain ⟨lf0, hlf0, rfl⟩ := List.mem_map.mp hlf
    have htid0 : lf0.linkedTableId = some tid := htid
    have hsome : jsLookup (tableIdToName (raw.tables.map processTable)) tid =
        some rt.name := by
      rw [tableIdToName_processed]
      apply jsLookup_nodup_mem
      · rw [List.map_map]
        exact hnd
      · exact List.mem_map.mpr ⟨rt, hrt, by rw [hid]⟩
    simp [resolveLinkName, htid0, hsome, jsTruthyOS, hname]
  · refine ⟨{ processTable rt with
        linkFields := (processTable rt).linkFields.map
          (resolveLinkName (tableIdToName (raw.tables.map processTable))),
        manualFields := (processTable rt).manualFields.map
          (resolveManualField (raw.tables.map processTable)) }, ?_, ?_, ?_⟩
    · rw [processSchema_tables]
      exact List.mem_map.mpr ⟨processTable rt, List.mem_map.mpr ⟨rt, hrt, rfl⟩, rfl⟩
    · exact hid
    · rfl

/-- Claim C7 counterexample: a normalized link field retains the raw
base-specific table identifier `tblZZZ` (in `linkedTableId` and, because the
target is missing from the schema, in `linkedTableName` as well), and no table
of the artifact has that id, so the reference cannot be resolved without the
original base. -/
theorem artifact_self_contained_cex :
    (processSchema exC7Schema none).tables.map (fun t => (t.originalId, t.name)) =
      [("tbl1", "A")] ∧
    (processSchema exC7Schema none).tables.map
        (fun t => t.linkFields.map (fun f => (f.linkedTableId, f.linkedTableName))) =
      [[(some "tblZZZ", some "tblZZZ")]] ∧
    ¬ ∃ t ∈ (processSchema exC7Schema none).tables, t.originalId = "tblZZZ" := by
  decide

/-- Witness for C7 at the two-table schema. -/
theorem artifact_self_contained_witness :
    exOwnerOut.linkedTableName = some "People" ∧
      ∃ nt ∈ (processSchema exTwoTableSchema none).tables,
        nt.originalId = "tblA" ∧ nt.name = "People" :=
  artifact_self_contained exTwoTableSchema none (by decide) exProjectsOut (by decide)
    exOwnerOut (by decide) "tblA" (by decide)
    (exTwoTableSchema.tables.get ⟨0, by decide⟩) (by decide) (by decide) (by decide)

theorem step1_inner (rid : String) : ∀ (l : List NormField) (acc : String × String),
    l.foldl (fun acc2 f => if f.originalId == rid then repCL rid acc2 f else acc2) acc =
      (l.filter (fun f => f.originalId == rid)).foldl (repCL rid) acc := by
  intro l
  induction l with
  | nil => intro acc; rfl
  | cons x xs ih =>
    intro acc
    by_cases hx : x.originalId = rid
    · simp only [List.foldl_cons, List.filter_cons, hx, beq_self_eq_true, if_true]
      exact ih (repCL rid acc x)
    · have hb : (x.originalId == rid) = false := by simp [hx]
      simp only [List.foldl_cons, List.filter_cons, hb, Bool.false_eq_true, if_false]
      exact ih acc

theorem step1_eq (tables : List NormTable) (rid : String) : ∀ p : String × String,
    step1 tables rid p = (matchesCL tables rid).foldl (repCL rid) p := by
  induction tables with
  | nil => intro p; rfl
  | cons t ts ih =>
    intro p
    rw [show step1 (t :: ts) rid p =
        step1 ts rid
          ((t.creatableFields ++ t.linkFields).foldl
            (fun acc2 f => if f.originalId == rid then repCL rid acc2 f else acc2) p)
      from rfl]
    rw [step1_inner, ih]
    simp [matchesCL, List.foldl_append]

theorem step2Scan_inner (tables : List NormTable) (fid r : String) :
    ∀ (l : List NormField) (acc : String × String),
      l.foldl (fun acc2 f =>
        if jsStrictEqOS f.originalId (some r) then step2One tables fid f acc2
        else acc2) acc =
      (l.filter (fun f => f.originalId == r)).foldl
        (fun q f => step2One tables fid f q) acc := by
  intro l
  induction l with
  | nil => intro acc; rfl
  | cons x xs ih =>
    intro acc
    by_cases hx : x.originalId = r
    · simp only [List.foldl_cons, List.filter_cons, jsStrictEqOS, hx, beq_self_eq_true,
        if_true]
      exact ih (step2One tables fid x acc)
    · have hb : (x.originalId == r) = false := by simp [hx]
      simp only [List.foldl_cons, List.filter_cons, jsStrictEqOS, hb, Bool.false_eq_true,
        if_false]
      exact ih acc

theorem step2_some_eq (tables : List NormTable) (fid r : String) :
    ∀ p : String × String,
      step2 tables (some r) fid p =
        (matchesLI tables r).foldl (fun q f => step2One tables fid f q) p := by
  have key : ∀ (scan : List NormTable) (p : String × String),
      step2Scan tables (some r) fid scan p =
        ((scan.map (fun t => (t.linkFields ++ t.inverseLinkFields).filter
            (fun f => f.originalId == r))).flatten).foldl
          (fun q f => step2One tables fid f q) p := by
    intro scan
    induction scan with
    | nil => intro p; rfl
    | cons t ts ih =>
      intro p
      rw [show step2Scan tables (some r) fid (t :: ts) p =
          step2Scan tables (some r) fid ts
            ((t.linkFields ++ t.inverseLinkFields).foldl
              (fun acc2 f =>
                if jsStrictEqOS f.originalId (some r) then step2One tables fid f acc2
                else acc2) p)
        from rfl]
      rw [step2Scan_inner, ih]
      simp [List.foldl_append]
  exact key tables

theorem step2_none_eq (tables : List NormTable) (fid : String) :
    ∀ p : String × String, step2 tables none fid p = p := by
  have hinner : ∀ (l : List NormField) (acc : String × String),
      l.foldl (fun acc2 f =>
        if jsStrictEqOS f.originalId none then step2One tables fid f acc2
        else acc2) acc = acc := by
    intro l
    induction l with
    | nil => intro acc; rfl
    | cons x xs ih =>
      intro acc
      simp only [List.foldl_cons, jsStrictEqOS, Bool.false_eq_true, if_false]
      exact ih acc
  have key : ∀ (scan : List NormTable) (p : String × String),
      step2Scan tables none fid scan p = p := by
    intro scan
    induction scan with
    | nil => intro p; rfl
    | cons t ts ih =>
      intro p
      rw [show step2Scan tables none fid (t :: ts) p =
          step2Scan tables none fid ts
            ((t.linkFields ++ t.inverseLinkFields).foldl
              (fun acc2 f =>
                if jsStrictEqOS f.originalId none then step2One tables fid f acc2
                else acc2) p)
        from rfl]
      rw [hinner, ih]
  exact key tables

/-- Claim C5 (amended): the second resolution pass searches, for
`recordLinkFieldId`, only the tables' `creatableFields` and `linkFields` (not
`manualFields`), applying the `"<name>" field` replacement once per match to
the first occurrence of the raw id; `fieldIdInLinkedTable` is resolved only
through a link/inverse-link field whose `originalId` equals
`recordLinkFieldId`, following its `linkedTableId` to the first table with
that id and searching only that table's creatable/link/manual fields,
replacing the first occurrence with `"<field>" in "<table>"`; when nothing
matches, both instruction strings are unchanged. -/
theorem manual_resolution_amended :
    ∀ (tables : List NormTable) (oo : RawOptions) (cell desc : String),
    ((∀ r, oo.recordLinkFieldId = some r →
        matchesCL tables r = [] ∧ matchesLI tables r = []) →
      resolveManualStrings tables oo (cell, desc) = (cell, desc)) ∧
    (∀ r f, oo.recordLinkFieldId = some r → r ≠ "" →
      matchesCL tables r = [f] →
      (oo.fieldIdInLinkedTable = none ∨ oo.fieldIdInLinkedTable = some "") →
      resolveManualStrings tables oo (cell, desc) =
        (replaceFirst cell r ("\"" ++ f.name ++ "\" field"),
         replaceFirst desc r ("\"" ++ f.name ++ "\" field"))) ∧
    (∀ r f fi g ltid lt lf, oo.recordLinkFieldId = some r → r ≠ "" →
      matchesCL tables r = [f] →
      oo.fieldIdInLinkedTable = some fi → fi ≠ "" →
      matchesLI tables r = [g] →
      g.linkedTableId = some ltid → ltid ≠ "" →
      tables.find? (fun tt => tt.originalId == ltid) = some lt →
      (lt.creatableFields ++ lt.linkFields ++ lt.manualFields).find?
          (fun ff => ff.originalId == fi) = some lf →
      resolveManualStrings tables oo (cell, desc) =
        (replaceFirst (replaceFirst cell r ("\"" ++ f.name ++ "\" field")) fi
           ("\"" ++ lf.name ++ "\" in \"" ++ lt.name ++ "\""),
         replaceFirst (replaceFirst desc r ("\"" ++ f.name ++ "\" field")) fi
           ("\"" ++ lf.name ++ "\" in \"" ++ lt.name ++ "\""))) := by
  intro tables oo cell desc
  refine ⟨?_, ?_, ?_⟩
  · intro h
    rcases hrid : oo.recordLinkFieldId with _ | r <;>
      rcases hfid : oo.fieldIdInLinkedTable with _ | fi
    · simp [resolveManualStrings, hrid, hfid]
    · simp [resolveManualStrings, hrid, hfid, step2_none_eq]
    · have hm := h r hrid
      simp [resolveManualStrings, hrid, hfid, step1_eq, hm.1]
    · have hm := h r hrid
      simp [resolveManualStrings, hrid, hfid, step1_eq, step2_some_eq, hm.1, hm.2]
  · intro r f hrid hr hm hfid
    have hrb : (r == "") = false := by simp [hr]
    rcases hfid with hfid | hfid <;>
      simp [resolveManualStrings, hrid, hfid, hrb, step1_eq, hm, repCL]
  · intro r f fi g ltid lt lf hrid hr hmCL hfid hfi hmLI hg hltne hfindT hfindF
    have hrb : (r == "") = false := by simp [hr]
    have hfib : (fi == "") = false := by simp [hfi]
    have hltb : (ltid == "") = false := by simp [hltne]
    simp only [List.find?_append, Option.or_assoc] at hfindF
    simp [resolveManualStrings, hrid, hfid, hrb, hfib, step1_eq, step2_some_eq,
      hmCL, hmLI, repCL, step2One, hg, hltb, hltne, hfindT, hfindF]

/-- Claim C5 counterexample: in `exC5Schema` the rollup `Roll` has
`recordLinkFieldId = fldM`, and a manual field with `originalId = fldM` named
`Other` exists in the schema's `manualFields` — the claim's search (which
includes `manualFields`) would find it and substitute `"Other" field`.  The
code searches only `creatableFields`/`linkFields`, so the raw id `fldM` stays
in the instructions and the quoted reference never appears. -/
theorem manual_resolution_cex :
    (processSchema exC5Schema none).tables.map
        (fun t => t.manualFields.map (fun f => (f.originalId, f.name))) =
      [[("fldR", "Roll"), ("fldM", "Other")]] ∧
    (processSchema exC5Schema none).tables.map
        (fun t => t.manualFields.map
          (fun f => f.originalOptions.map RawOptions.recordLinkFieldId)) =
      [[some (some "fldM"), some none]] ∧
    (processSchema exC5Schema none).tables.map
        (fun t => t.manualFields.map
          (fun f => strContains (jsOrEmpty f.manualCellInstructions) "fldM")) =
      [[true, false]] ∧
    (processSchema exC5Schema none).tables.map
        (fun t => t.manualFields.map
          (fun f => strContains (jsOrEmpty f.manualCellInstructions) "\"Other\" field")) =
      [[false, false]] := by
  decide

/-- Witness for C5 at the two-table schema's pre-resolution tables: the full
chain replaces `fldOwn` by `"Owner" field` and `fldScore` by
`"Score" in "People"`. -/
theorem manual_resolution_amended_witness :
    resolveManualStrings exPreTables exRollOO ("A fldOwn B fldScore", "fldScore C") =
      (replaceFirst (replaceFirst "A fldOwn B fldScore" "fldOwn"
           ("\"" ++ exOwnerNF.name ++ "\" field")) "fldScore"
         ("\"" ++ exScoreNF.name ++ "\" in \"" ++ exPeopleNT.name ++ "\""),
       replaceFirst (replaceFirst "fldScore C" "fldOwn"
           ("\"" ++ exOwnerNF.name ++ "\" field")) "fldScore"
         ("\"" ++ exScoreNF.name ++ "\" in \"" ++ exPeopleNT.name ++ "\"")) :=
  (manual_resolution_amended exPreTables exRollOO "A fldOwn B fldScore" "fldScore C").2.2
    "fldOwn" exOwnerNF "fldScore" exOwnerNF "tblA" exPeopleNT exScoreNF
    (by decide) (by decide) (by decide) (by decide) (by decide) (by decide)
    (by decide) (by decide) (by decide) (by decide)

/-- Witness for C1 at concrete fields: a formula field classifies as `manual`,
and classification is determined by `type` and `options`. -/
theorem classify_decision_table_witness :
    classifyField exFormulaField = Category.manual ∧
      classifyField exLinkField = classifyField exLinkField :=
  ⟨(classify_decision_table.1 exFormulaField).1.mpr (Or.inl rfl),
   classify_decision_table.2 exLinkField exLinkField rfl rfl⟩
